import Mathlib

/-!
# Kubernetes flavor plugin: `plugin/flavor/kubernetes/flavor.go`

A shallow embedding of `kubernetesFlavor.Validate`, `kubernetesFlavor.Prepare`,
`provisionMachineSSL` and `execScript`, and theorems about them.

Conventions of the embedding

* Go strings are `String`; `strings.Join` is `stringsJoin`.
* A Go `map[string]T` is an association list with unique keys (`AList`); a `range`
  over it visits its entries in list order, and since every theorem quantifies over
  all such lists, every iteration order Go may pick is covered.
* A Go pointer or a nilable map is an `Option`; dereferencing `none` is a run-time
  panic, which is an outcome of its own (`Outcome.panic`), distinct from returning an
  error.
* The standard library (`encoding/json`, `os/exec`) and the generated `Asset` table are
  not part of the plugin: they are the fields of `Env`, and every theorem holds for all
  of them. Concrete inputs are run in `exampleEnv` and `floatEnv`; the latter decodes
  and encodes a fragment of JSON the way `encoding/json` does, numbers as `float64`.
* Spawning a subprocess is the only side effect that matters here: the functions thread
  the list of commands run so far (`Trace`), oldest first.
-/

namespace kubernetes

/-- A Go `error` value, identified by its message. -/
abbrev GoError := String

/-- The type `json.RawMessage`: undecoded bytes. -/
abbrev RawMessage := String

/-- A Go `map[string]string`. -/
abbrev StringMap := AList (fun _ : String => String)

/-- What `json.Unmarshal` stores in an `interface{}`: `nil`, `bool`, `float64` (a
natural number that codes the value; the plugin never computes with it, and each
environment says how it codes), `string`, `[]interface{}`, `map[string]interface{}`. -/
inductive JValue where
  | null : JValue
  | bool : Bool → JValue
  | number : Nat → JValue
  | str : String → JValue
  | arr : List JValue → JValue
  | obj : List (String × JValue) → JValue

/-- The `map[string]interface{}` that `Prepare` decodes the instance properties into. -/
abbrev Properties := AList (fun _ : String => JValue)

/-- The struct `Spec`, the model of the Properties section of the top level group spec
(flavor.go, lines 17-23). A nil slice or map behaves as the empty one for `append` and
`range`, the only uses made of them. -/
structure Spec where
  Init : List String
  Tags : StringMap

/-- Modelled from the spec: the struct `instance.Spec` is declared in package
`spi/instance`, which is not among the sources. These are the four fields `Prepare`
reads and writes, the `InstanceDraft` of the specification: `Init string`,
`LogicalID *instance.LogicalID`, `Properties *json.RawMessage`,
`Tags map[string]string`. -/
structure InstanceSpec where
  Init : String
  LogicalID : Option String
  Properties : Option RawMessage
  Tags : Option StringMap

/-- The plugin value (flavor.go, lines 33-36). -/
structure kubernetesFlavor where
  Index : Int
  SslDir : String

/-- The constructor `NewPlugin` (flavor.go, lines 29-31). -/
def NewPlugin (sslDir : String) : kubernetesFlavor :=
  { Index := 0, SslDir := sslDir }

/-- An `exec.Cmd` at the moment `Run` is called on it: `exec.Command(name, args...)`
with its standard input. -/
structure Cmd where
  name : String
  args : List String
  stdin : String
deriving DecidableEq, Repr

/-- The commands on which `Run` has been called so far, oldest first. -/
abbrev Trace := List Cmd

/-- Everything `flavor.go` calls that is not defined in it.

* `unmarshalSpec raw` is `json.Unmarshal(raw, &Spec{})`.
* `unmarshalProps raw` is `json.Unmarshal(raw, &properties)` for a nil
  `properties map[string]interface{}`: an error, or the map left nil (`none`, the JSON
  text `null`), or the decoded object.
* `marshalProps m` is `json.Marshal(m)`; it cannot fail on a map of decoded JSON values
  and strings.
* `Asset name` is the generated asset table.
* `run tr cmd` is `cmd.Run()` after the commands of `tr` have run: `none` for a zero
  exit status, an error otherwise (non-zero status, or the process could not be
  spawned). -/
structure Env where
  unmarshalSpec : RawMessage → Except GoError Spec
  unmarshalProps : RawMessage → Except GoError (Option Properties)
  marshalProps : Properties → RawMessage
  Asset : String → Except GoError String
  run : Trace → Cmd → Option GoError

/-- The library call `strings.Join(elems, sep)`: the elements with `sep` between
neighbours. -/
def stringsJoin : List String → String → String
  | [], _ => ""
  | [a], _ => a
  | a :: b :: rest, sep => a ++ sep ++ stringsJoin (b :: rest) sep

/-- The function `execScript` (flavor.go, lines 122-140). The parameter `script` is not
used by the body: the asset read is always `"ssl/init-ssl"`. The command is
`exec.Command("bash", "-s", strings.Join(args, ", "))` with the asset as standard
input; it enters the trace when `Run` is called on it, whatever `Run` returns. Logging
and the echo of the captured output are not modelled. -/
def execScript (env : Env) (script : String) (args : List String) (tr : Trace) :
    Option GoError × Trace :=
  let _ := script
  match env.Asset "ssl/init-ssl" with
  | .error err => (some err, tr)
  | .ok data =>
    let cmd : Cmd := { name := "bash", args := ["-s", stringsJoin args ", "], stdin := data }
    match env.run tr cmd with
    | some err => (some err, tr ++ [cmd])
    | none => (none, tr ++ [cmd])

/-- The loop of `provisionMachineSSL` (flavor.go, lines 112-115): `i` is the index of
the head of the list still to visit, `ipString` the string built so far. -/
def ipStringLoop : List String → Nat → String → String
  | [], _, ipString => ipString
  | ip :: rest, i, ipString =>
    ipStringLoop rest (i + 1) (ipString ++ ("IP." ++ toString (i + 1) ++ "=" ++ ip ++ ","))

/-- The function `provisionMachineSSL` (flavor.go, lines 110-120): `tarFile` is
`fmt.Sprintf("ssl/%s.tar", cn)`; the error of `execScript` comes back with an empty
path. -/
def provisionMachineSSL (env : Env) (k : kubernetesFlavor) (certBaseName cn : String)
    (ipAddrs : List String) (tr : Trace) : (String × Option GoError) × Trace :=
  let tarFile := "ssl/" ++ cn ++ ".tar"
  let ipString := ipStringLoop ipAddrs 0 ""
  match execScript env "ssl/init-ssl" [k.SslDir, certBaseName, cn, ipString] tr with
  | (some err, tr1) => (("", some err), tr1)
  | (none, tr1) => ((tarFile, none), tr1)

/-- The method `Validate` (flavor.go, lines 38-40): the error of `json.Unmarshal`, if
any. The allocation method is not used by the body and is left out. -/
def Validate (env : Env) (flavorProperties : RawMessage) : Option GoError :=
  match env.unmarshalSpec flavorProperties with
  | .error err => some err
  | .ok _ => none

/-- How a call of `Prepare` ends: it returns its two results, or the goroutine panics. -/
inductive Outcome where
  | ret : InstanceSpec → Option GoError → Outcome
  | panic : String → Outcome

/-- The panic of dereferencing a nil pointer. -/
def nilDereference : String :=
  "runtime error: invalid memory address or nil pointer dereference"

/-- The panic of storing into a nil map. -/
def nilMapAssignment : String := "assignment to entry in nil map"

/-- The lines joined into the bootstrap script (flavor.go, lines 64-68). -/
def initLines (init : String) (flavorInit : List String) : List String :=
  (if init ≠ "" then [init] else []) ++ flavorInit

/-- The tag loop (flavor.go, lines 101-106) over the entries in the order visited. -/
def appendTags (entries : List (Sigma fun _ : String => String)) (tags : Option StringMap) :
    Option StringMap :=
  entries.foldl (fun t e => some ((t.getD ∅).insert e.1 e.2)) tags

/-- The method `Prepare` (flavor.go, lines 52-108). The allocation method is not used
by the body and is left out. `instance` is passed by value: `inst1`, `inst2`, `inst3`
are the local copy after each assignment to a field. The error of
`provisionMachineSSL` (line 89) is assigned and never read. Line 98 assigns the bytes
`data` to the field `Properties`, which line 93 dereferences as a pointer: as written
the two do not type-check together, and the assignment is read as making the field
point to `data`. The error of `json.Marshal` (line 97) is never read either; the
encoding cannot fail on a decoded map with one more string. -/
def Prepare (env : Env) (k : kubernetesFlavor) (flavor : RawMessage) (inst : InstanceSpec)
    (tr : Trace) : Outcome × Trace :=
  match env.unmarshalSpec flavor with
  | .error err => (.ret inst (some err), tr)
  | .ok s =>
    let inst1 := { inst with Init := stringsJoin (initLines inst.Init s.Init) "\n" }
    match execScript env "ssl/init-ssl-ca" [k.SslDir] tr with
    | (some err, tr1) => (.ret inst1 (some err), tr1)
    | (none, tr1) =>
      match execScript env "ssl/init-ssl" [k.SslDir, "admin", "kube-admin"] tr1 with
      | (some err, tr2) => (.ret inst1 (some err), tr2)
      | (none, tr2) =>
        match inst1.LogicalID with
        | none => (.panic nilDereference, tr2)
        | some logicalID =>
          match provisionMachineSSL env k "apiserver" ("kube-apiserver-" ++ logicalID)
              [logicalID, "10.3.0.1"] tr2 with
          | ((sslTar, _), tr3) =>
            match inst1.Properties with
            | none => (.panic nilDereference, tr3)
            | some raw =>
              match env.unmarshalProps raw with
              | .error err => (.ret inst1 (some err), tr3)
              | .ok none => (.panic nilMapAssignment, tr3)
              | .ok (some properties) =>
                let properties1 := properties.insert "SSL" (JValue.str sslTar)
                let inst2 := { inst1 with Properties := some (env.marshalProps properties1) }
                let inst3 := { inst2 with Tags := appendTags s.Tags.entries inst2.Tags }
                (.ret inst3 none, tr3)

/-! ## Vocabulary of the statements -/

/-- Reading `tags[key]` in the comma-ok form; a nil map has no key. -/
def tagValue (tags : Option StringMap) (key : String) : Option String :=
  tags.bind fun m => m.lookup key

/-- The positional parameters (`$1`, `$2`, ...) of the script that `bash -s arg...`
reads from its standard input: the arguments after `-s`. -/
def positionalParameters (cmd : Cmd) : List String :=
  match cmd.args with
  | "-s" :: rest => rest
  | other => other

/-- One Subject-Alternative-Name entry as the specification writes it,
`IP.<1-based index>=<address>`; `p.1` is the 1-based index. -/
def sanEntry (p : Nat × String) : String :=
  "IP." ++ toString p.1 ++ "=" ++ p.2

/-- The entries `IP.1=ip1`, ..., `IP.n=ipn` of the specification, in input order. -/
def sanEntries (ipAddrs : List String) : List String :=
  (ipAddrs.enumFrom 1).map sanEntry

/-! ## A concrete environment

The end-to-end scenario of the specification: flavor configuration
`Init: ["echo hello"], Tags: role=worker`, working directory `ssl`, and a draft with
script `echo base`, logical identity `10.0.0.5`, no properties and no tags. The codec
of `exampleEnv` knows the few texts the scenario needs; the two assets have different
bodies; the `n`-th command run ends as the `n`-th entry of `results` says (success
beyond the end of the list). -/

/-- The flavor configuration of the scenario, as JSON text. -/
def exampleFlavor : RawMessage :=
  "\x7b\"Init\": [\"echo hello\"], \"Tags\": \x7b\"role\": \"worker\"\x7d\x7d"

/-- The decoded `exampleFlavor`. -/
def exampleSpec : Spec :=
  { Init := ["echo hello"], Tags := (∅ : StringMap).insert "role" "worker" }

/-- Body of the asset `ssl/init-ssl-ca` in `exampleEnv`. -/
def caScriptBody : String := "#!/bin/bash\n# init-ssl-ca"

/-- Body of the asset `ssl/init-ssl` in `exampleEnv`. -/
def credentialScriptBody : String := "#!/bin/bash\n# init-ssl"

/-- JSON text of a value, for string values (all that the scenario stores). -/
def renderValue : JValue → String
  | .str s => "\"" ++ s ++ "\""
  | _ => "null"

/-- The environment of the scenario. -/
def exampleEnv (results : List (Option GoError)) : Env where
  unmarshalSpec raw :=
    if raw = exampleFlavor then .ok exampleSpec else .error "unexpected end of JSON input"
  unmarshalProps raw :=
    if raw = "\x7b\x7d" then .ok (some ∅)
    else if raw = "null" then .ok none
    else .error "unexpected end of JSON input"
  marshalProps m :=
    "\x7b" ++ stringsJoin (m.entries.map fun e => "\"" ++ e.1 ++ "\":" ++ renderValue e.2) ","
      ++ "\x7d"
  Asset name :=
    if name = "ssl/init-ssl-ca" then .ok caScriptBody
    else if name = "ssl/init-ssl" then .ok credentialScriptBody
    else .error ("Asset " ++ name ++ " not found")
  run tr _ := results.getD tr.length none

/-- The draft of the scenario. -/
def exampleDraft : InstanceSpec :=
  { Init := "echo base", LogicalID := some "10.0.0.5", Properties := some "\x7b\x7d",
    Tags := some ∅ }

/-- The three commands a successful `Prepare` of the scenario runs. -/
def exampleCommands : Trace :=
  [⟨"bash", ["-s", "ssl"], credentialScriptBody⟩,
   ⟨"bash", ["-s", "ssl, admin, kube-admin"], credentialScriptBody⟩,
   ⟨"bash", ["-s", "ssl, apiserver, kube-apiserver-10.0.0.5, IP.1=10.0.0.5,IP.2=10.3.0.1,"],
    credentialScriptBody⟩]

/-- The draft a successful `Prepare` of the scenario returns. -/
def examplePrepared : InstanceSpec :=
  { Init := "echo base\necho hello", LogicalID := some "10.0.0.5",
    Properties := some "\x7b\"SSL\":\"ssl/kube-apiserver-10.0.0.5.tar\"\x7d",
    Tags := some ((∅ : StringMap).insert "role" "worker") }

/-- The draft `Prepare` returns in the scenario when a script fails: the script is
already merged, nothing else is touched. -/
def exampleFailedDraft : InstanceSpec :=
  { exampleDraft with Init := "echo base\necho hello" }

/-! ## A codec for a fragment of JSON

The properties of a draft are text. To say which object a text denotes, and what
`json.Unmarshal` into a `map[string]interface{}` followed by `json.Marshal` makes of
it, `floatEnv` below has a codec for the texts `\x7b"k1":v1,...,"kn":vn\x7d` without blanks,
whose values are strings without escapes and non-negative integer literals. Decoding
stores a number as the nearest `float64`, as `encoding/json` does for an
`interface{}` target. -/

theorem intercalate_go_append (x acc sep : String) (l : List String) :
    String.intercalate.go (x ++ acc) sep l = x ++ String.intercalate.go acc sep l := by
  induction l generalizing acc with
  | nil => simp [String.intercalate.go]
  | cons a rest ih =>
    rw [String.intercalate.go, String.intercalate.go, ← ih]
    simp [String.append_assoc]

theorem intercalate_go_cons (acc sep b : String) (rest : List String) :
    String.intercalate.go acc sep (b :: rest) = acc ++ sep ++ String.intercalate.go b sep rest := by
  rw [String.intercalate.go, intercalate_go_append]

/-- The embedding of `strings.Join` is the library's `String.intercalate`. -/
theorem stringsJoin_eq_intercalate (l : List String) (sep : String) :
    stringsJoin l sep = sep.intercalate l := by
  induction l with
  | nil => rfl
  | cons a rest ih =>
    cases rest with
    | nil => simp [stringsJoin, String.intercalate, String.intercalate.go]
    | cons b rest =>
      rw [stringsJoin, ih]
      simp [String.intercalate, intercalate_go_cons]

theorem stringsJoin_cons (a : String) (l : List String) (sep : String) (hl : l ≠ []) :
    stringsJoin (a :: l) sep = a ++ sep ++ stringsJoin l sep := by
  cases l with
  | nil => exact absurd rfl hl
  | cons b rest => rfl

/-- What a `Prepare` that returns a nil error has gone through, and the draft it
returns. -/
theorem Prepare_ok_inv {env : Env} {k : kubernetesFlavor} {flavor : RawMessage}
    {inst r : InstanceSpec} {tr tr1 : Trace}
    (h : Prepare env k flavor inst tr = (.ret r none, tr1)) :
    ∃ s logicalID raw properties,
      env.unmarshalSpec flavor = .ok s ∧ inst.LogicalID = some logicalID ∧
      inst.Properties = some raw ∧ env.unmarshalProps raw = .ok (some properties) ∧
      r.Init = stringsJoin (initLines inst.Init s.Init) "\n" ∧
      r.LogicalID = inst.LogicalID ∧
      r.Tags = appendTags s.Tags.entries inst.Tags := by
  unfold Prepare at h
  cases hs : env.unmarshalSpec flavor with
  | error e => simp [hs] at h
  | ok s =>
    rcases hca : execScript env "ssl/init-ssl-ca" [k.SslDir] tr with ⟨_ | e1, t1⟩
    · rcases had : execScript env "ssl/init-ssl" [k.SslDir, "admin", "kube-admin"] t1
        with ⟨_ | e2, t2⟩
      · cases hid : inst.LogicalID with
        | none => simp [hs, hca, had, hid] at h
        | some logicalID =>
          cases hp : inst.Properties with
          | none => simp [hs, hca, had, hid, hp] at h
          | some raw =>
            cases hd : env.unmarshalProps raw with
            | error e => simp [hs, hca, had, hid, hp, hd] at h
            | ok o =>
              cases o with
              | none => simp [hs, hca, had, hid, hp, hd] at h
              | some properties =>
                simp [hs, hca, had, hid, hp, hd] at h
                obtain ⟨hr, _⟩ := h
                subst hr
                exact ⟨s, logicalID, raw, properties, rfl, rfl, rfl, hd, rfl, rfl, rfl⟩
      · simp [hs, hca, had] at h
    · simp [hs, hca] at h

/-- The tag loop, read key by key: a key of the entries visited gets the value of its
entry, any other key keeps what the map held before the loop. -/
theorem tagValue_appendTags (entries : List (Sigma fun _ : String => String))
    (hnd : entries.NodupKeys) (tags : Option StringMap) (key : String) :
    tagValue (appendTags entries tags) key =
      match entries.dlookup key with
      | some value => some value
      | none => tagValue tags key := by
  induction entries generalizing tags with
  | nil => simp [appendTags, List.dlookup]
  | cons e rest ih =>
    obtain ⟨hk, hrest⟩ := List.nodupKeys_cons.mp hnd
    have hstep : appendTags (e :: rest) tags =
        appendTags rest (some ((tags.getD ∅).insert e.1 e.2)) := rfl
    rw [hstep, ih hrest]
    by_cases hkey : key = e.1
    · subst hkey
      have hnone : List.dlookup e.1 rest = none := List.dlookup_eq_none.mpr hk
      rw [hnone, List.dlookup_cons_eq]
      simp [tagValue, AList.lookup_insert]
    · rw [List.dlookup_cons_ne rest e hkey]
      cases hl : List.dlookup key rest with
      | some value => rfl
      | none =>
        cases tags with
        | none =>
          show AList.lookup key (AList.insert e.1 e.2 (∅ : StringMap)) = none
          rw [AList.lookup_insert_ne hkey]
          exact AList.lookup_empty key
        | some m =>
          show AList.lookup key (AList.insert e.1 e.2 m) = AList.lookup key m
          exact AList.lookup_insert_ne hkey

/-- The loop of `provisionMachineSSL` appends, to what it has built, the remaining
entries joined by commas and one more comma (nothing when no address remains). -/
theorem ipStringLoop_eq (ipAddrs : List String) (i : Nat) (acc : String) :
    ipStringLoop ipAddrs i acc =
      acc ++ (if ipAddrs = [] then ""
        else stringsJoin ((ipAddrs.enumFrom (i + 1)).map sanEntry) "," ++ ",") := by
  induction ipAddrs generalizing i acc with
  | nil => simp [ipStringLoop]
  | cons ip rest ih =>
    rw [ipStringLoop, ih]
    cases rest with
    | nil => simp [List.enumFrom, stringsJoin, sanEntry, String.append_assoc]
    | cons ip2 rest2 =>
      simp [List.enumFrom, stringsJoin, sanEntry, String.append_assoc]

/-! ## Bootstrap script and tags of a prepared draft -/

/-- C1. Whenever `Prepare` returns without error on a configuration whose `Init` lines
are `l1..ln`, `n >= 1`, and a draft whose bootstrap script is `s`: the returned script
is `s`, a newline, and `l1..ln` joined by newlines when `s` is not empty, and `l1..ln`
joined by newlines when `s` is empty (the lines in their order). -/
theorem Prepare_bootstrap_merge (env : Env) (k : kubernetesFlavor) (flavor : RawMessage)
    (inst r : InstanceSpec) (tr tr1 : Trace) (cfg : Spec)
    (hcfg : env.unmarshalSpec flavor = .ok cfg) (hlines : cfg.Init ≠ [])
    (hret : Prepare env k flavor inst tr = (.ret r none, tr1)) :
    (inst.Init ≠ "" → r.Init = inst.Init ++ "\n" ++ "\n".intercalate cfg.Init) ∧
    (inst.Init = "" → r.Init = "\n".intercalate cfg.Init) := by
  obtain ⟨s, _, _, _, hs, _, _, _, hinit, _, _⟩ := Prepare_ok_inv hret
  rw [hcfg] at hs
  cases hs
  rw [hinit, ← stringsJoin_eq_intercalate]
  constructor
  · intro hne
    simp only [initLines, if_pos hne, List.singleton_append]
    exact stringsJoin_cons _ _ _ hlines
  · intro he
    simp [initLines, he]

/-- The scenario: `echo base` and the one line `echo hello` give
`echo base\necho hello`. -/
theorem Prepare_bootstrap_merge_witness :
    Prepare (exampleEnv []) (NewPlugin "ssl") exampleFlavor exampleDraft [] =
        (.ret examplePrepared none, exampleCommands) ∧
      examplePrepared.Init = "echo base" ++ "\n" ++ "\n".intercalate ["echo hello"] :=
  ⟨rfl, (Prepare_bootstrap_merge (exampleEnv []) (NewPlugin "ssl") exampleFlavor exampleDraft
    examplePrepared [] exampleCommands exampleSpec rfl (by decide) rfl).1 (by decide)⟩

/-- C2. Whenever `Prepare` returns without error, with `D` the tags of the draft, `F`
those of the configuration and `T` those returned: every key of `F` has in `T` the
value `F` gives it; every key of `D` that is not in `F` keeps the value `D` gives it;
and every key of `T` is a key of `D` or of `F`. -/
theorem Prepare_tags_merge (env : Env) (k : kubernetesFlavor) (flavor : RawMessage)
    (inst r : InstanceSpec) (tr tr1 : Trace) (cfg : Spec)
    (hcfg : env.unmarshalSpec flavor = .ok cfg)
    (hret : Prepare env k flavor inst tr = (.ret r none, tr1)) :
    (∀ key value, cfg.Tags.lookup key = some value → tagValue r.Tags key = some value) ∧
    (∀ key value, tagValue inst.Tags key = some value → key ∉ cfg.Tags →
      tagValue r.Tags key = some value) ∧
    (∀ key, (tagValue r.Tags key).isSome →
      (tagValue inst.Tags key).isSome ∨ key ∈ cfg.Tags) := by
  obtain ⟨s, _, _, _, hs, _, _, _, _, _, htags⟩ := Prepare_ok_inv hret
  rw [hcfg] at hs
  cases hs
  have hval := tagValue_appendTags cfg.Tags.entries cfg.Tags.nodupKeys inst.Tags
  rw [← htags] at hval
  refine ⟨?_, ?_, ?_⟩
  · intro key value hf
    have hf1 : List.dlookup key cfg.Tags.entries = some value := hf
    rw [hval, hf1]
  · intro key value hd hnot
    have hf1 : List.dlookup key cfg.Tags.entries = none := AList.lookup_eq_none.mpr hnot
    rw [hval, hf1]
    exact hd
  · intro key hsome
    cases hf : List.dlookup key cfg.Tags.entries with
    | some value =>
      right
      exact AList.lookup_isSome.mp (by rw [show AList.lookup key cfg.Tags = some value from hf]; rfl)
    | none =>
      left
      rw [hval, hf] at hsome
      exact hsome

/-- The scenario with a draft that already has tags `role=base` and `zone=a`: the
flavor's `role=worker` wins, `zone=a` stays, and no other key appears. -/
theorem Prepare_tags_merge_witness :
    tagValue (some (((∅ : StringMap).insert "role" "base").insert "zone" "a")) "role" =
        some "base" ∧
      ∃ r tr1,
        Prepare (exampleEnv []) (NewPlugin "ssl") exampleFlavor
          { exampleDraft with
            Tags := some (((∅ : StringMap).insert "role" "base").insert "zone" "a") } [] =
          (.ret r none, tr1) ∧
        tagValue r.Tags "role" = some "worker" ∧ tagValue r.Tags "zone" = some "a" ∧
        ¬ (tagValue r.Tags "other").isSome :=
  have hret : Prepare (exampleEnv []) (NewPlugin "ssl") exampleFlavor
      { exampleDraft with
        Tags := some (((∅ : StringMap).insert "role" "base").insert "zone" "a") } [] =
      (.ret { examplePrepared with
        Tags := some ((((∅ : StringMap).insert "role" "base").insert "zone" "a").insert
          "role" "worker") } none, exampleCommands) := rfl
  have h := Prepare_tags_merge (exampleEnv []) (NewPlugin "ssl") exampleFlavor _ _ [] _
    exampleSpec rfl hret
  ⟨by decide, _, _, hret, h.1 "role" "worker" (by decide),
    h.2.1 "zone" "a" (by decide) (by decide), fun hs => by
      rcases h.2.2 "other" hs with h1 | h1
      · exact absurd h1 (by decide)
      · exact absurd h1 (by decide)⟩

/-! ## Malformed configuration -/

/-- C4. On a configuration `Validate` rejects, `Prepare` returns the error, runs no
command (the trace is the one it was given) and returns the draft it was given. -/
theorem Prepare_malformed (env : Env) (k : kubernetesFlavor) (flavor : RawMessage)
    (inst : InstanceSpec) (tr : Trace) (err : GoError)
    (hbad : Validate env flavor = some err) :
    Prepare env k flavor inst tr = (.ret inst (some err), tr) := by
  unfold Validate at hbad
  unfold Prepare
  cases hs : env.unmarshalSpec flavor with
  | error e =>
    rw [hs] at hbad
    simp only [Option.some.injEq] at hbad
    rw [hbad]
  | ok s =>
    rw [hs] at hbad
    cases hbad

/-- A truncated configuration text: `Validate` fails, `Prepare` returns the same
error, the draft as given, and an empty trace. -/
theorem Prepare_malformed_witness :
    Validate (exampleEnv []) "\x7b\"Init\": [" = some "unexpected end of JSON input" ∧
      Prepare (exampleEnv []) (NewPlugin "ssl") "\x7b\"Init\": [" exampleDraft [] =
        (.ret exampleDraft (some "unexpected end of JSON input"), []) :=
  ⟨rfl, Prepare_malformed (exampleEnv []) (NewPlugin "ssl") "\x7b\"Init\": [" exampleDraft []
    "unexpected end of JSON input" rfl⟩

/-! ## The certificate reference -/

/-- C10. `provisionMachineSSL` does what the invocation of the credential script does
with the arguments working directory, base name, common name and the SAN string made
of the entries `IP.1=ip1`, ..., `IP.n=ipn` joined by commas, plus one trailing comma
when there is an address at all: it runs the same commands and reports the same error,
and when the invocation succeeds it returns `"ssl/" ++ cn ++ ".tar"`. -/
theorem provisionMachineSSL_san_and_path (env : Env) (k : kubernetesFlavor)
    (certBaseName cn : String) (ipAddrs : List String) (tr tr1 : Trace)
    (res : Option GoError)
    (hexec : execScript env "ssl/init-ssl"
      [k.SslDir, certBaseName, cn,
        ",".intercalate (sanEntries ipAddrs) ++ (if ipAddrs = [] then "" else ",")] tr =
      (res, tr1)) :
    (provisionMachineSSL env k certBaseName cn ipAddrs tr).2 = tr1 ∧
    (provisionMachineSSL env k certBaseName cn ipAddrs tr).1.2 = res ∧
    (res = none →
      (provisionMachineSSL env k certBaseName cn ipAddrs tr).1.1 = "ssl/" ++ cn ++ ".tar") := by
  have hsan : ipStringLoop ipAddrs 0 "" =
      ",".intercalate (sanEntries ipAddrs) ++ (if ipAddrs = [] then "" else ",") := by
    rw [ipStringLoop_eq, ← stringsJoin_eq_intercalate]
    by_cases hnil : ipAddrs = []
    · simp [hnil, sanEntries, stringsJoin]
    · simp [hnil, sanEntries]
  unfold provisionMachineSSL
  simp only [hsan, hexec]
  cases res with
  | none => simp [String.append_assoc]
  | some e => simp

/-- The node certificate of the scenario: the SAN string is
`IP.1=10.0.0.5,IP.2=10.3.0.1,` and the path returned is
`ssl/kube-apiserver-10.0.0.5.tar`. -/
theorem provisionMachineSSL_san_and_path_witness :
    ",".intercalate (sanEntries ["10.0.0.5", "10.3.0.1"]) = "IP.1=10.0.0.5,IP.2=10.3.0.1" ∧
      provisionMachineSSL (exampleEnv []) (NewPlugin "ssl") "apiserver"
          "kube-apiserver-10.0.0.5" ["10.0.0.5", "10.3.0.1"] [] =
        (("ssl/" ++ "kube-apiserver-10.0.0.5" ++ ".tar", none),
          [⟨"bash",
            ["-s", "ssl, apiserver, kube-apiserver-10.0.0.5, IP.1=10.0.0.5,IP.2=10.3.0.1,"],
            credentialScriptBody⟩]) :=
  have h := provisionMachineSSL_san_and_path (exampleEnv []) (NewPlugin "ssl") "apiserver"
    "kube-apiserver-10.0.0.5" ["10.0.0.5", "10.3.0.1"] []
    [⟨"bash", ["-s", "ssl, apiserver, kube-apiserver-10.0.0.5, IP.1=10.0.0.5,IP.2=10.3.0.1,"],
      credentialScriptBody⟩] none rfl
  ⟨by decide, Prod.ext (Prod.ext (h.2.2 rfl) h.2.1) h.1⟩

/-! ## The draft returned with an error -/

/-- C7, as amended. Whenever `Prepare` returns an error, the draft it returns has the
logical identity, the properties and the tags of the draft it was given; its bootstrap
script is the one given when the configuration is malformed, and otherwise the merged
script: the given script, when not empty, followed by the `Init` lines of the
configuration, joined by newlines. -/
theorem Prepare_error_draft (env : Env) (k : kubernetesFlavor) (flavor : RawMessage)
    (inst r : InstanceSpec) (tr tr1 : Trace) (err : GoError)
    (hret : Prepare env k flavor inst tr = (.ret r (some err), tr1)) :
    r.LogicalID = inst.LogicalID ∧ r.Properties = inst.Properties ∧ r.Tags = inst.Tags ∧
    (Validate env flavor ≠ none → r.Init = inst.Init) ∧
    (∀ cfg, env.unmarshalSpec flavor = .ok cfg →
      r.Init = "\n".intercalate (initLines inst.Init cfg.Init)) := by
  unfold Prepare at hret
  unfold Validate
  cases hs : env.unmarshalSpec flavor with
  | error e =>
    simp [hs] at hret
    obtain ⟨⟨hr, _⟩, _⟩ := hret
    subst hr
    exact ⟨rfl, rfl, rfl, fun _ => rfl, fun cfg hc => by cases hc⟩
  | ok s =>
    have key : ∀ t : Trace,
        (Outcome.ret { inst with Init := stringsJoin (initLines inst.Init s.Init) "\n" }
          (some err), t) = (Outcome.ret r (some err), tr1) →
        r.LogicalID = inst.LogicalID ∧ r.Properties = inst.Properties ∧
        r.Tags = inst.Tags ∧
        ((match Except.ok s with
          | Except.error e => some e
          | Except.ok _ => (none : Option GoError)) ≠ none → r.Init = inst.Init) ∧
        (∀ cfg, Except.ok s = (Except.ok cfg : Except GoError Spec) →
          r.Init = "\n".intercalate (initLines inst.Init cfg.Init)) := by
      intro t ht
      simp only [Prod.mk.injEq, Outcome.ret.injEq, and_true] at ht
      obtain ⟨hr, _⟩ := ht
      subst hr
      refine ⟨rfl, rfl, rfl, fun hne => absurd rfl hne, fun cfg hc => ?_⟩
      cases hc
      exact stringsJoin_eq_intercalate _ _
    rcases hca : execScript env "ssl/init-ssl-ca" [k.SslDir] tr with ⟨_ | e1, t1⟩
    · rcases had : execScript env "ssl/init-ssl" [k.SslDir, "admin", "kube-admin"] t1
        with ⟨_ | e2, t2⟩
      · cases hid : inst.LogicalID with
        | none => simp [hs, hca, had, hid] at hret
        | some logicalID =>
          cases hp : inst.Properties with
          | none => simp [hs, hca, had, hid, hp] at hret
          | some raw =>
            cases hd : env.unmarshalProps raw with
            | error e =>
              simp only [hs, hca, had, hid, hp, hd] at hret
              have he : e = err := by
                simp only [Prod.mk.injEq, Outcome.ret.injEq, Option.some.injEq] at hret
                exact hret.1.2
              subst he
              have hkey := key
                (provisionMachineSSL env k "apiserver" ("kube-apiserver-" ++ logicalID)
                  [logicalID, "10.3.0.1"] t2).2 (by rw [hid, hp]; exact hret)
              simpa [hid, hp] using hkey
            | ok o =>
              cases o with
              | none => simp [hs, hca, had, hid, hp, hd] at hret
              | some properties => simp [hs, hca, had, hid, hp, hd] at hret
      · simp only [hs, hca, had] at hret
        have he : e2 = err := by
          simp only [Prod.mk.injEq, Outcome.ret.injEq, Option.some.injEq] at hret
          exact hret.1.2
        subst he
        exact key _ hret
    · simp only [hs, hca] at hret
      have he : e1 = err := by
        simp only [Prod.mk.injEq, Outcome.ret.injEq, Option.some.injEq] at hret
        exact hret.1.2
      subst he
      exact key _ hret

/-- The scenario with a failing first command: the error comes back with a draft whose
script is already merged and whose other fields are as given. -/
theorem Prepare_error_draft_witness :
    Prepare (exampleEnv [some "exit status 1"]) (NewPlugin "ssl") exampleFlavor exampleDraft
        [] = (.ret exampleFailedDraft (some "exit status 1"), exampleCommands.take 1) ∧
      exampleFailedDraft.LogicalID = exampleDraft.LogicalID ∧
      exampleFailedDraft.Properties = exampleDraft.Properties ∧
      exampleFailedDraft.Tags = exampleDraft.Tags ∧
      exampleFailedDraft.Init = "\n".intercalate (initLines exampleDraft.Init exampleSpec.Init) :=
  have h := Prepare_error_draft (exampleEnv [some "exit status 1"]) (NewPlugin "ssl")
    exampleFlavor exampleDraft exampleFailedDraft [] (exampleCommands.take 1) "exit status 1" rfl
  ⟨rfl, h.1, h.2.1, h.2.2.1, h.2.2.2.2 exampleSpec rfl⟩

/-- C7 as stated fails: in the scenario with a failing first command, `Prepare` returns
an error together with a draft whose bootstrap script is not the one it was given. -/
theorem Prepare_error_draft_counterexample :
    Prepare (exampleEnv [some "exit status 1"]) (NewPlugin "ssl") exampleFlavor exampleDraft
        [] = (.ret exampleFailedDraft (some "exit status 1"), exampleCommands.take 1) ∧
      exampleFailedDraft.Init = "echo base\necho hello" ∧
      exampleDraft.Init = "echo base" ∧
      exampleFailedDraft.Init ≠ exampleDraft.Init :=
  ⟨rfl, rfl, rfl, by decide⟩

/-! ## Where the code departs from its contract -/

/-- C5. A draft without logical identity, in the scenario: `Prepare` does not return at
all, it panics on the nil dereference of line 88, after the CA and admin commands have
run and before any node certificate is asked for. -/
theorem Prepare_nil_logicalID_panics :
    Prepare (exampleEnv []) (NewPlugin "ssl") exampleFlavor
        { exampleDraft with LogicalID := none } [] =
      (.panic nilDereference, exampleCommands.take 2) ∧
    exampleCommands.take 2 =
      [⟨"bash", ["-s", "ssl"], credentialScriptBody⟩,
       ⟨"bash", ["-s", "ssl, admin, kube-admin"], credentialScriptBody⟩] :=
  ⟨rfl, rfl⟩

/-- C6. The scenario with a failing third command: `provisionMachineSSL` reports the
error and an empty path, and `Prepare` still returns a nil error, with the empty
string under `SSL`. -/
theorem Prepare_ignores_node_failure :
    provisionMachineSSL (exampleEnv [none, none, some "exit status 1"]) (NewPlugin "ssl")
        "apiserver" "kube-apiserver-10.0.0.5" ["10.0.0.5", "10.3.0.1"]
        (exampleCommands.take 2) = (("", some "exit status 1"), exampleCommands) ∧
    Prepare (exampleEnv [none, none, some "exit status 1"]) (NewPlugin "ssl") exampleFlavor
        exampleDraft [] =
      (.ret { examplePrepared with Properties := some "\x7b\"SSL\":\"\"\x7d" } none,
        exampleCommands) ∧
    "\x7b\"SSL\":\"\"\x7d" =
      (exampleEnv []).marshalProps ((∅ : Properties).insert "SSL" (.str "")) :=
  ⟨rfl, rfl, rfl⟩

/-- C8. `execScript("ssl/init-ssl", "ssl", "admin", "kube-admin")` in the scenario: the
command run is `bash -s "ssl, admin, kube-admin"`, so the script has one positional
parameter, the three arguments joined by `", "`, not the three arguments. -/
theorem execScript_joins_arguments :
    execScript (exampleEnv []) "ssl/init-ssl" ["ssl", "admin", "kube-admin"] [] =
      (none, [⟨"bash", ["-s", "ssl, admin, kube-admin"], credentialScriptBody⟩]) ∧
    positionalParameters ⟨"bash", ["-s", "ssl, admin, kube-admin"], credentialScriptBody⟩ =
      ["ssl, admin, kube-admin"] ∧
    positionalParameters ⟨"bash", ["-s", "ssl, admin, kube-admin"], credentialScriptBody⟩ ≠
      ["ssl", "admin", "kube-admin"] :=
  ⟨rfl, rfl, by decide⟩

/-- C9. The successful scenario runs three commands, in the order CA, admin, node, and
every one of them, the first included, is fed the body of the asset `ssl/init-ssl`,
which is not the body of `ssl/init-ssl-ca`. -/
theorem Prepare_runs_credential_script_thrice :
    Prepare (exampleEnv []) (NewPlugin "ssl") exampleFlavor exampleDraft [] =
      (.ret examplePrepared none, exampleCommands) ∧
    exampleCommands.map positionalParameters =
      [["ssl"], ["ssl, admin, kube-admin"],
       ["ssl, apiserver, kube-apiserver-10.0.0.5, IP.1=10.0.0.5,IP.2=10.3.0.1,"]] ∧
    exampleCommands.map (fun c => c.stdin) =
      [credentialScriptBody, credentialScriptBody, credentialScriptBody] ∧
    (exampleEnv []).Asset "ssl/init-ssl" = .ok credentialScriptBody ∧
    (exampleEnv []).Asset "ssl/init-ssl-ca" = .ok caScriptBody ∧
    caScriptBody ≠ credentialScriptBody :=
  ⟨rfl, rfl, rfl, rfl, rfl, by decide⟩

end kubernetes
